import Mathlib

/-!
Verification of the invoice mock-data service: a shallow embedding of the
inconsistency-injecting generator (`app/utils/generator.py`), the storage
abstraction (`app/db/database.py`), and the paginated read endpoint
(`app/api/invoices.py`), together with theorems settling the specified
properties.

Modelling conventions:
* Python dynamically typed values become the inductive `Val`; Python floats
  are modelled as exact rationals (`ℚ`); `None` is `Val.null`.
* A Python dict (insertion ordered, string keys) becomes an association
  list `Rec`; dict assignment of a fresh key is an append, assignment of an
  existing key is `setKey`.
* The shared randomness source (`random.*`, `faker`) is modelled as fixed
  oracle streams (`RandSrc`) read at ever-increasing cursors (`RandIdx`);
  each primitive draw advances one cursor, mirroring the order in which the
  Python code consumes randomness.
* Rendering of numbers and dates into strings (`str()`, `strftime`,
  f-string format specs) is abstracted by total deterministic functions;
  no claim inspects the contents of those strings.
-/

namespace MockInvoiceService

/-- Dynamically typed Python value (floats as exact rationals). -/
inductive Val where
  | str (s : String)
  | num (q : ℚ)
  | int (n : ℤ)
  | null
  | arr (l : List Val)
  | obj (l : List (String × Val))
  | oid (n : ℕ)

/-- A Python dict with string keys, in insertion order. -/
abbrev Rec := List (String × Val)

/-- Lookup of a key in a record (first occurrence wins, like a dict). -/
def lookupRec : Rec → String → Option Val
  | [], _ => none
  | (k, v) :: rest, key => if k = key then some v else lookupRec rest key

/-- Dict assignment `d[k] = v`: overwrite the existing entry in place, or
append a new entry at the end. -/
def setKey : Rec → String → Val → Rec
  | [], k, v => [(k, v)]
  | (k', v') :: rest, k, v =>
    if k' = k then (k', v) :: rest else (k', v') :: setKey rest k v

/-- Sample stored records used for concrete instances. -/
def recA : Rec := [("message_id", Val.str "msg_001")]

def recB : Rec := [("message_id", Val.str "msg_002")]

theorem lookupRec_append (l₁ l₂ : Rec) (k : String) :
    lookupRec (l₁ ++ l₂) k =
      match lookupRec l₁ k with
      | some v => some v
      | none => lookupRec l₂ k := by
  induction l₁ with
  | nil => rfl
  | cons hd tl ih =>
    obtain ⟨k', v'⟩ := hd
    by_cases h : k' = k <;> simp [lookupRec, h, ih]

theorem lookupRec_eq_none_of_notMem (l : Rec) (k : String)
    (h : k ∉ l.map Prod.fst) : lookupRec l k = none := by
  induction l with
  | nil => rfl
  | cons hd tl ih =>
    obtain ⟨k', v'⟩ := hd
    simp only [List.map_cons, List.mem_cons] at h
    push_neg at h
    have hne : ¬k' = k := fun hk => h.1 hk.symm
    simp [lookupRec, hne, ih h.2]

theorem lookupRec_setKey_ne (l : Rec) (k k' : String) (v : Val)
    (h : k ≠ k') : lookupRec (setKey l k' v) k = lookupRec l k := by
  have hne : ¬k' = k := fun hk => h hk.symm
  induction l with
  | nil => simp [setKey, lookupRec, hne]
  | cons hd tl ih =>
    obtain ⟨k₀, v₀⟩ := hd
    by_cases h₀ : k₀ = k'
    · subst h₀
      simp [setKey, lookupRec, hne]
    · by_cases h₁ : k₀ = k <;> simp [setKey, h₀, lookupRec, h₁, h, ih]

/-! ### Decimal rendering of naturals (for `f"msg_{n:03d}"`, `f"INV-{n}"`)

A fuel-indexed big-endian digit renderer (fuel `n` always suffices), with a
parser round trip giving injectivity of the rendered strings. -/

/-- Big-endian decimal digits of `n`, computed with explicit fuel. -/
def digitsBE : ℕ → ℕ → List Char
  | 0, _ => []
  | fuel + 1, n =>
    if n < 10 then [Nat.digitChar n]
    else digitsBE fuel (n / 10) ++ [Nat.digitChar (n % 10)]

/-- Decimal rendering of a natural number, as Python `str(n)`. -/
def natStr (n : ℕ) : String :=
  String.mk (digitsBE n n)

/-- Numeric value of a digit character. -/
def charVal (c : Char) : ℕ :=
  c.toNat - 48

/-- Left fold reading a decimal numeral. -/
def parseAcc : ℕ → List Char → ℕ
  | acc, [] => acc
  | acc, c :: cs => parseAcc (acc * 10 + charVal c) cs

theorem parseAcc_nil (acc : ℕ) : parseAcc acc [] = acc := rfl

theorem parseAcc_cons (acc : ℕ) (c : Char) (cs : List Char) :
    parseAcc acc (c :: cs) = parseAcc (acc * 10 + charVal c) cs := rfl

theorem parseAcc_append (acc : ℕ) (l₁ l₂ : List Char) :
    parseAcc acc (l₁ ++ l₂) = parseAcc (parseAcc acc l₁) l₂ := by
  induction l₁ generalizing acc with
  | nil => rfl
  | cons c cs ih => exact ih (acc * 10 + charVal c)

theorem charVal_digitChar (d : ℕ) (h : d < 10) :
    charVal (Nat.digitChar d) = d := by
  interval_cases d <;> decide

theorem parseAcc_digitsBE (fuel n acc : ℕ) (h : n ≤ fuel + 1) :
    parseAcc acc (digitsBE (fuel + 1) n) =
      acc * 10 ^ (digitsBE (fuel + 1) n).length + n := by
  induction fuel generalizing n acc with
  | zero =>
    have h10 : n < 10 := by omega
    have hd : digitsBE 1 n = [Nat.digitChar n] := by
      show (if n < 10 then [Nat.digitChar n] else _) = _
      rw [if_pos h10]
    rw [hd]
    show acc * 10 + charVal (Nat.digitChar n) =
      acc * 10 ^ [Nat.digitChar n].length + n
    rw [charVal_digitChar n h10]
    simp
  | succ f ih =>
    by_cases h10 : n < 10
    · have hd : digitsBE (f + 1 + 1) n = [Nat.digitChar n] := by
        show (if n < 10 then [Nat.digitChar n] else _) = _
        rw [if_pos h10]
      rw [hd]
      show acc * 10 + charVal (Nat.digitChar n) =
        acc * 10 ^ [Nat.digitChar n].length + n
      rw [charVal_digitChar n h10]
      simp
    · have hdiv : n / 10 ≤ f + 1 := by omega
      have hmod : n % 10 < 10 := Nat.mod_lt _ (by norm_num)
      have hd : digitsBE (f + 1 + 1) n =
          digitsBE (f + 1) (n / 10) ++ [Nat.digitChar (n % 10)] := by
        show (if n < 10 then _
          else digitsBE (f + 1) (n / 10) ++ [Nat.digitChar (n % 10)]) = _
        rw [if_neg h10]
      rw [hd, parseAcc_append, ih (n / 10) acc hdiv, List.length_append]
      show (acc * 10 ^ (digitsBE (f + 1) (n / 10)).length + n / 10) * 10 +
          charVal (Nat.digitChar (n % 10)) =
        acc * 10 ^ ((digitsBE (f + 1) (n / 10)).length + [Nat.digitChar (n % 10)].length) + n
      rw [charVal_digitChar _ hmod]
      have h2 : 10 * (n / 10) + n % 10 = n := Nat.div_add_mod n 10
      calc (acc * 10 ^ (digitsBE (f + 1) (n / 10)).length + n / 10) * 10 + n % 10
          = acc * (10 ^ (digitsBE (f + 1) (n / 10)).length * 10) +
              (10 * (n / 10) + n % 10) := by ring
        _ = acc * (10 ^ (digitsBE (f + 1) (n / 10)).length * 10) + n := by rw [h2]
        _ = acc * 10 ^ ((digitsBE (f + 1) (n / 10)).length + [Nat.digitChar (n % 10)].length) + n := by
            rw [List.length_singleton, pow_succ]

theorem parseAcc_digitsBE_self (n : ℕ) :
    parseAcc 0 (digitsBE n n) = n := by
  cases n with
  | zero => rfl
  | succ m =>
    have := parseAcc_digitsBE m (m + 1) 0 (by omega)
    simpa using this

/-- The `:03d` zero padding applied by `generate_message_id`. -/
def pad3 (n : ℕ) : List Char :=
  if n < 10 then '0' :: '0' :: digitsBE n n
  else if n < 100 then '0' :: digitsBE n n
  else digitsBE n n

theorem parseAcc_pad3 (n : ℕ) : parseAcc 0 (pad3 n) = n := by
  have c0 : charVal '0' = 0 := by decide
  unfold pad3
  split
  · rw [parseAcc_cons, parseAcc_cons, c0]
    norm_num
    exact parseAcc_digitsBE_self n
  · split
    · rw [parseAcc_cons, c0]
      norm_num
      exact parseAcc_digitsBE_self n
    · exact parseAcc_digitsBE_self n

theorem pad3_injective : Function.Injective pad3 := by
  intro a b h
  have := parseAcc_pad3 a
  rw [h, parseAcc_pad3 b] at this
  omega

/-- `generate_message_id`'s format `f"msg_{n:03d}"`. -/
def msgId (n : ℕ) : String :=
  String.mk ('m' :: 's' :: 'g' :: '_' :: pad3 n)

theorem msgId_injective : Function.Injective msgId := by
  intro a b h
  apply pad3_injective
  unfold msgId at h
  injection h with h2
  simpa using h2

/-! ### Flat-file (JSON) storage backend, `app/db/database.py` -/

/-- State of the backing JSON file. -/
inductive FileState where
  | ok (data : List Rec)
  | invalid
  | missing

namespace JSONDatabase

/-- `JSONDatabase._read_data`: parse the file; `json.JSONDecodeError` and
`FileNotFoundError` are caught and yield the empty list. -/
def _read_data : FileState → List Rec
  | .ok l => l
  | .invalid => []
  | .missing => []

/-- `JSONDatabase._write_data`: rewrite the whole file with the given
collection. -/
def _write_data (_fs : FileState) (data : List Rec) : FileState :=
  .ok data

/-- `JSONDatabase.save_invoices`: read-extend-rewrite; returns success. -/
def save_invoices (fs : FileState) (invoices : List Rec) : Bool × FileState :=
  let existing := _read_data fs
  (true, _write_data fs (existing ++ invoices))

/-- `JSONDatabase.get_all_invoices`. -/
def get_all_invoices (fs : FileState) : List Rec :=
  _read_data fs

/-- `JSONDatabase.get_invoice_count`. -/
def get_invoice_count (fs : FileState) : ℕ :=
  (_read_data fs).length

/-- `JSONDatabase.clear_invoices`. -/
def clear_invoices (fs : FileState) : Bool × FileState :=
  (true, _write_data fs [])

end JSONDatabase

/-! ### File-system operation traces, for the atomicity analysis of
`JSONDatabase._write_data` (claim about all-or-nothing writes). -/

/-- A primitive file-system effect on the storage file. -/
inductive FsOp where
  | openTrunc
  | writeContent (data : List Rec)
  | writeTmp (data : List Rec)
  | renameTmp

/-- Main file plus an optional fully written temporary file. -/
structure FsState where
  main : FileState
  tmp : Option (List Rec)

/-- Effect of one operation: `open(path, "w")` truncates the target file
immediately; `json.dump` then writes the full content; the temp-file
pattern writes elsewhere and atomically renames over the target. -/
def applyFsOp (s : FsState) : FsOp → FsState
  | .openTrunc => { s with main := .ok [] }
  | .writeContent l => { s with main := .ok l }
  | .writeTmp l => { s with tmp := some l }
  | .renameTmp =>
    match s.tmp with
    | some l => { main := .ok l, tmp := none }
    | none => s

def runFsOps (s : FsState) : List FsOp → FsState
  | [] => s
  | op :: rest => runFsOps (applyFsOp s op) rest

/-- Trace of `JSONDatabase._write_data`: `with open(self.file_path, 'w') as
f: json.dump(data, f, ...)` — an in-place truncate followed by the write. -/
def writeDataOps (data : List Rec) : List FsOp :=
  [.openTrunc, .writeContent data]

/-- Modelled from the spec: the required all-or-nothing pattern, "write to a
temporary location then atomically replace", which `_write_data` does not
implement. -/
def atomicWriteOps (data : List Rec) : List FsOp :=
  [.writeTmp data, .renameTmp]

/-! ### MongoDB storage backend, `app/db/database.py` -/

/-- The document collection plus the next server object id. -/
structure MongoState where
  coll : List Rec
  nextOid : ℕ

namespace MongoDatabase

/-- Stamping and insertion performed by `save_invoices`: each record gets
`_created_at` set to the server time and `insert_many` assigns each inserted
document a fresh `_id` object id. -/
def insertStamped (now : Val) : ℕ → List Rec → List Rec
  | _, [] => []
  | oid, inv :: rest =>
    setKey (setKey inv "_created_at" now) "_id" (.oid oid) ::
      insertStamped now (oid + 1) rest

/-- `MongoDatabase.save_invoices`: empty batch returns success untouched;
otherwise bulk-insert and compare the acknowledged count with the batch
size. -/
def save_invoices (st : MongoState) (invoices : List Rec) (now : Val) :
    Bool × MongoState :=
  if invoices.isEmpty then (true, st)
  else
    let inserted := insertStamped now st.nextOid invoices
    (decide (inserted.length = invoices.length),
      { coll := st.coll ++ inserted, nextOid := st.nextOid + invoices.length })

/-- String rendering of a stored object id, as `str(invoice['_id'])`. -/
def oidStr : Val → String
  | .oid n => toString n
  | _ => ""

/-- `MongoDatabase.get_all_invoices`: return all documents, converting the
`_id` field to a string for serialization. -/
def get_all_invoices (st : MongoState) : List Rec :=
  st.coll.map fun inv =>
    match lookupRec inv "_id" with
    | some v => setKey inv "_id" (.str (oidStr v))
    | none => inv

/-- `MongoDatabase.get_invoice_count`. -/
def get_invoice_count (st : MongoState) : ℕ :=
  st.coll.length

/-- `MongoDatabase.clear_invoices`: `delete_many({})`. -/
def clear_invoices (st : MongoState) : Bool × MongoState :=
  (true, { st with coll := [] })

end MongoDatabase

/-! ### Invoice generator, `app/utils/generator.py`

The generator is embedded with an oracle model of randomness: `RandSrc`
holds fixed streams for `random.random()` draws (rationals), index draws
(`random.choice` / `random.randint`, taken modulo the range size) and faker
strings; `RandIdx` holds the three cursors, advanced once per primitive
draw in exactly the order the Python code consumes them. -/

/-- Fixed randomness streams. -/
structure RandSrc where
  rand : ℕ → ℚ
  nat : ℕ → ℕ
  str : ℕ → String

/-- Cursors into the three streams. -/
structure RandIdx where
  r : ℕ
  n : ℕ
  s : ℕ

/-- One `random.random()` draw. -/
def RandSrc.random (src : RandSrc) (ix : RandIdx) : ℚ × RandIdx :=
  (src.rand ix.r, { ix with r := ix.r + 1 })

/-- One index draw backing `random.choice` / `random.randint`. -/
def RandSrc.pickNat (src : RandSrc) (ix : RandIdx) : ℕ × RandIdx :=
  (src.nat ix.n, { ix with n := ix.n + 1 })

/-- One faker-generated string (company, email, date, word). -/
def RandSrc.pickStr (src : RandSrc) (ix : RandIdx) : String × RandIdx :=
  (src.str ix.s, { ix with s := ix.s + 1 })

/-- Mutable generator state (`InvoiceGenerator.__init__`). -/
structure GenSt where
  inconsistencyRate : ℚ
  messageCounter : ℕ
  invoiceCounter : ℕ
  generatedMessages : List Rec

/-- A fresh `InvoiceGenerator(inconsistency_rate)`. -/
def initGen (rate : ℚ) : GenSt :=
  { inconsistencyRate := rate, messageCounter := 1, invoiceCounter := 1001,
    generatedMessages := [] }

/-- Rendering of an integer, as Python `str`. -/
def intStr (n : ℤ) : String :=
  if n < 0 then "-" ++ natStr n.natAbs else natStr n.natAbs

/-- Abstract decimal rendering of a rational (Python float `str`). -/
def ratStr (q : ℚ) : String :=
  intStr q.num ++ "/" ++ natStr q.den

/-- Python `str()` of a value, used by f-string interpolation. -/
def pyStr : Val → String
  | .str s => s
  | .num q => ratStr q
  | .int n => intStr n
  | .null => "None"
  | .oid n => natStr n
  | .arr _ => "[...]"
  | .obj _ => "dict"

/-- Python `round(q, 2)` on exact rationals (half-up abstraction). -/
def round2 (q : ℚ) : ℚ :=
  (⌊q * 100 + 1 / 2⌋ : ℚ) / 100

/-- Abstract rendering of `f"${base_amount:,.2f}"`. -/
def moneyStr (q : ℚ) : String :=
  "$" ++ ratStr q

/-- Abstract `datetime.utcnow() - timedelta(days=d)` as a tagged string. -/
def dateBack (days : ℕ) : String :=
  "utcnow-minus-" ++ natStr days

/-- Abstract `strftime("%d/%m/%Y %H:%M")`. -/
def fmtDDMM (d : String) : String :=
  d ++ "+ddmmyyyy-hhmm"

/-- Abstract `strftime("%Y-%m-%dT%H:%M:%S")` (no timezone marker). -/
def fmtNoTZ (d : String) : String :=
  d ++ "+iso-no-tz"

/-- Abstract `strftime("%Y-%m-%dT%H:%M:%SZ")` (canonical form). -/
def fmtISOZ (d : String) : String :=
  d ++ "+iso-z"

/-- `InvoiceGenerator.generate_message_id`. -/
def generate_message_id (g : GenSt) : String × GenSt :=
  (msgId g.messageCounter, { g with messageCounter := g.messageCounter + 1 })

/-- `InvoiceGenerator.generate_invoice_id`: `f"INV-{n}"`. -/
def generate_invoice_id (g : GenSt) : String × GenSt :=
  ("INV-" ++ natStr g.invoiceCounter,
    { g with invoiceCounter := g.invoiceCounter + 1 })

/-- `InvoiceGenerator.generate_amount`: a uniform base amount, replaced
with probability `rate` by one of five inconsistent variants. -/
def generate_amount (rate : ℚ) (src : RandSrc) (ix : RandIdx) :
    Val × RandIdx :=
  let (u, ix1) := src.random ix
  let base := round2 (100 + u * 9900)
  let (p, ix2) := src.random ix1
  if p < rate then
    let (c, ix3) := src.pickNat ix2
    match c % 5 with
    | 0 => (.str (moneyStr base), ix3)
    | 1 => (.str (ratStr base), ix3)
    | 2 =>
      let (t, ix4) := src.pickNat ix3
      (.str (["TWO THOUSAND", "invalid_amount", "TBD", "N/A"].getD (t % 4) ""),
        ix4)
    | 3 => (.null, ix3)
    | _ => (.num (-base), ix3)
  else (.num base, ix2)

/-- `InvoiceGenerator.generate_datetime`: a date in the past 30 days,
replaced with probability `rate` by one of four malformed variants. -/
def generate_datetime (rate : ℚ) (src : RandSrc) (ix : RandIdx) :
    Val × RandIdx :=
  let (d, ix1) := src.pickNat ix
  let base := dateBack (1 + d % 30)
  let (p, ix2) := src.random ix1
  if p < rate then
    let (c, ix3) := src.pickNat ix2
    match c % 4 with
    | 0 => (.str (fmtDDMM base), ix3)
    | 1 => (.str (fmtNoTZ base), ix3)
    | 2 => (.str "invalid_datetime", ix3)
    | _ => (.null, ix3)
  else (.str (fmtISOZ base), ix2)

/-- `InvoiceGenerator.generate_currency`: one of five codes, or missing
with probability `rate / 2`. -/
def generate_currency (rate : ℚ) (src : RandSrc) (ix : RandIdx) :
    Option String × RandIdx :=
  let (p, ix1) := src.random ix
  if p < rate * (1 / 2) then (none, ix1)
  else
    let (c, ix2) := src.pickNat ix1
    (some (["USD", "EUR", "GBP", "CAD", "AUD"].getD (c % 5) ""), ix2)

/-- `InvoiceGenerator.generate_vendor_name`: faker company plus a suffix
from a fixed vocabulary; always a plain string. -/
def generate_vendor_name (src : RandSrc) (ix : RandIdx) : String × RandIdx :=
  let (company, ix1) := src.pickStr ix
  let (sfx, ix2) := src.pickNat ix1
  (company ++ " " ++
    ["Inc.", "Corp", "LLC", "Services", "Technologies", "Global", "Co.",
      "Solutions", "Innovations"].getD (sfx % 9) "", ix2)

/-- An optional dict entry: included exactly when the guard holds. -/
def optEntry (c : Prop) [Decidable c] (k : String) (v : Val) : Rec :=
  if c then [(k, v)] else []

/-- The `currency` entry, present only when `generate_currency` returned a
code. -/
def currencyEntry : Option String → Rec
  | some c => [("currency", Val.str c)]
  | none => []

/-- One entry of the `line_items` drift field: a faker word, a quantity in
1-20 and a rate in 10-500. -/
def genLineItems (src : RandSrc) : ℕ → RandIdx → List Val × RandIdx
  | 0, ix => ([], ix)
  | count + 1, ix =>
    let (w, ix1) := src.pickStr ix
    let (q, ix2) := src.pickNat ix1
    let (u, ix3) := src.random ix2
    let item : Val := .obj [("item", .str w.capitalize),
      ("quantity", .int (1 + q % 20 : ℕ)),
      ("rate", .num (round2 (10 + u * 490)))]
    let (rest, ix4) := genLineItems src count ix3
    (item :: rest, ix4)

/-- The body of `InvoiceGenerator.generate_invoice_data` after the invoice
id has been allocated: synthesizes the field values, then builds the dict
in Python insertion order, omitting fields per the injection policy and
appending drift fields. A dict whose keys are assigned once in a fixed
order is modelled as the concatenation of optional singleton entries. -/
def generate_invoice_fields (rate : ℚ) (invoiceId : String) (src : RandSrc)
    (ix : RandIdx) (includeExtraFields : Bool) : Rec × RandIdx :=
  let (amount, ix1) := generate_amount rate src ix
  let (currency, ix2) := generate_currency rate src ix1
  let (dateStr, ix3) := src.pickStr ix2
  let (vendor, ix4) := generate_vendor_name src ix3
  let (st, ix5) := src.pickNat ix4
  let status := ["paid", "pending", "due", "overdue"].getD (st % 4) ""
  let (p1, ix6) := src.random ix5
  let e1 : Rec := optEntry (p1 > rate * (3 / 10)) "invoice_id" (.str invoiceId)
  let (p2, ix7) := src.random ix6
  let e2 : Rec := optEntry (p2 > rate * (1 / 5)) "amount" amount
  let e3 : Rec := currencyEntry currency
  let (p3, ix8) := src.random ix7
  let e4 : Rec := optEntry (p3 > (3 / 10 : ℚ)) "status" (.str status)
  let (driftOn, ix9) :=
    if includeExtraFields then (true, ix8)
    else
      let (p4, ix') := src.random ix8
      (decide (p4 < (3 / 10 : ℚ)), ix')
  let (drift, ixEnd) :=
    if driftOn then
      let (p5, ixA) := src.random ix9
      let (f1, ixB) :=
        if p5 < (2 / 5 : ℚ) then
          let (dd, ix') := src.pickStr ixA
          (([("due_date", Val.str dd)] : Rec), ix')
        else ([], ixA)
      let (p6, ixC) := src.random ixB
      let (f2, ixD) :=
        if p6 < (2 / 5 : ℚ) then
          let (letter, ix') := src.pickNat ixC
          let (dg, ix'') := src.pickNat ix'
          (([("project_code", Val.str ("PROJ-" ++
            ["X", "Y", "Z"].getD (letter % 3) "" ++
            natStr (1 + dg % 9)))] : Rec), ix'')
        else ([], ixC)
      let (p7, ixE) := src.random ixD
      let f3 : Rec :=
        if p7 < (3 / 10 : ℚ) then
          [("tax_amount", Val.num (round2
            ((match amount with
              | .num q => q
              | .int n => (n : ℚ)
              | _ => 100) * (3 / 20))))]
        else []
      let (p8, ixF) := src.random ixE
      let (f4, ixG) :=
        if p8 < (1 / 5 : ℚ) then
          let (ap, ix') := src.pickStr ixF
          (([("approver", Val.str ap)] : Rec), ix')
        else ([], ixF)
      let (p9, ixH) := src.random ixG
      let (f5, ixI) :=
        if p9 < (3 / 20 : ℚ) then
          let (ni, ix') := src.pickNat ixH
          let (items, ix'') := genLineItems src (1 + ni % 3) ix'
          (([("line_items", Val.arr items)] : Rec), ix'')
        else ([], ixH)
      (f1 ++ f2 ++ f3 ++ f4 ++ f5, ixI)
    else (([] : Rec), ix9)
  (e1 ++ e2 ++ e3 ++
    [("date", Val.str dateStr), ("vendor_name", Val.str vendor)] ++
    e4 ++ drift, ixEnd)

/-- `InvoiceGenerator.generate_invoice_data`: allocate the invoice id, then
build the fields dict. -/
def generate_invoice_data (g : GenSt) (src : RandSrc) (ix : RandIdx)
    (includeExtraFields : Bool) : Rec × GenSt × RandIdx :=
  let (invoiceId, g1) := generate_invoice_id g
  let (fields, ix') :=
    generate_invoice_fields g.inconsistencyRate invoiceId src ix
      includeExtraFields
  (fields, g1, ix')

/-- `InvoiceGenerator.generate_email_invoice`: with `force_duplicate` set
and a non-empty history, return a copy of a uniformly chosen prior
message (same field values, no state change except the consumed draw);
otherwise assemble a fresh record and append it to the history. -/
def generate_email_invoice (g : GenSt) (src : RandSrc) (ix : RandIdx)
    (forceDuplicate : Bool) : Rec × GenSt × RandIdx :=
  if forceDuplicate = true ∧ g.generatedMessages.isEmpty = false then
    let (k, ix1) := src.pickNat ix
    (g.generatedMessages.getD (k % g.generatedMessages.length) [], g, ix1)
  else
    let (messageId, g1) := generate_message_id g
    let (invoiceData, g2, ix1) := generate_invoice_data g1 src ix false
    let invoiceIdStr := match lookupRec invoiceData "invoice_id" with
      | some v => pyStr v
      | none => "UNKNOWN"
    let amountStr := match lookupRec invoiceData "amount" with
      | some v => pyStr v
      | none => "N/A"
    let dateStr := match lookupRec invoiceData "date" with
      | some v => pyStr v
      | none => "N/A"
    let (letter, ix2) := src.pickNat ix1
    let subjects := ["Invoice " ++ invoiceIdStr,
      "Invoice #" ++ invoiceIdStr,
      "URGENT: Invoice " ++ invoiceIdStr,
      invoiceIdStr ++ " Payment Request",
      invoiceIdStr ++ " for Project " ++ ["X", "Y", "Z"].getD (letter % 3) "",
      "Invoice Notification"]
    let (si, ix3) := src.pickNat ix2
    let subject := subjects.getD (si % 6) ""
    let bodies := ["Please find invoice " ++ invoiceIdStr ++ " for $" ++
        amountStr ++ " dated " ++ dateStr,
      "Invoice " ++ invoiceIdStr ++ " Amount: $" ++ amountStr,
      "Invoice details: " ++ invoiceIdStr ++ " for $" ++ amountStr,
      "Here\x27s our invoice for services",
      "Amount: $" ++ amountStr,
      "Final invoice for project completion"]
    let (bi, ix4) := src.pickNat ix3
    let body := bodies.getD (bi % 6) ""
    let (sender, ix5) := src.pickStr ix4
    let (receivedAt, ix6) := generate_datetime g.inconsistencyRate src ix5
    let email : Rec := [("message_id", .str messageId),
      ("subject", .str subject), ("sender", .str sender),
      ("received_at", receivedAt), ("body", .str body),
      ("invoice_data", .obj invoiceData)]
    (email, { g2 with generatedMessages := g2.generatedMessages ++ [email] },
      ix6)

/-- One iteration of the `generate_batch` loop: draw the duplication
Bernoulli trial (gated on a non-empty history) and emit one record. -/
def genIter (d : ℚ) (g : GenSt) (src : RandSrc) (ix : RandIdx) :
    Rec × GenSt × RandIdx :=
  let (p, ix1) := src.random ix
  let force := decide (p < d) && !g.generatedMessages.isEmpty
  generate_email_invoice g src ix1 force

/-- `InvoiceGenerator.generate_batch`: `count` loop iterations, collecting
the emitted records in order. -/
def generate_batch (g : GenSt) (src : RandSrc) (ix : RandIdx) :
    ℕ → ℚ → List Rec × GenSt × RandIdx
  | 0, _ => ([], g, ix)
  | count + 1, d =>
    let (e, g1, ix1) := genIter d g src ix
    let (rest, g2, ix2) := generate_batch g1 src ix1 count d
    (e :: rest, g2, ix2)

/-- The generator state after `i` iterations of the `generate_batch` loop. -/
def iterState (d : ℚ) (src : RandSrc) : ℕ → GenSt × RandIdx → GenSt × RandIdx
  | 0, (g, ix) => (g, ix)
  | i + 1, (g, ix) =>
    let (_, g1, ix1) := genIter d g src ix
    iterState d src i (g1, ix1)

/-- Sequential `generate_batch` calls with the given counts, concatenating
the emitted records. -/
def runBatches (d : ℚ) (src : RandSrc) :
    GenSt → RandIdx → List ℕ → List Rec × GenSt × RandIdx
  | g, ix, [] => ([], g, ix)
  | g, ix, c :: cs =>
    let (b, g1, ix1) := generate_batch g src ix c d
    let (rest, g2, ix2) := runBatches d src g1 ix1 cs
    (b ++ rest, g2, ix2)

/-! ### Generator theorems -/

theorem lookupRec_optEntry_ne (c : Prop) [Decidable c] (k k' : String)
    (v : Val) (h : ¬k' = k) : lookupRec (optEntry c k' v) k = none := by
  unfold optEntry
  split
  · simp [lookupRec, h]
  · rfl

theorem lookupRec_currencyEntry_ne (o : Option String) (k : String)
    (h : ¬"currency" = k) : lookupRec (currencyEntry o) k = none := by
  cases o <;> simp [currencyEntry, lookupRec, h]

theorem generate_invoice_fields_date_vendor (rate : ℚ) (invoiceId : String)
    (src : RandSrc) (ix : RandIdx) (b : Bool) :
    (∃ s, lookupRec (generate_invoice_fields rate invoiceId src ix b).1 "date"
        = some (Val.str s)) ∧
    (∃ s, lookupRec (generate_invoice_fields rate invoiceId src ix b).1
        "vendor_name" = some (Val.str s)) := by
  unfold generate_invoice_fields
  repeat' split
  all_goals
    simp +decide [lookupRec_append, lookupRec_optEntry_ne,
      lookupRec_currencyEntry_ne, lookupRec]

/-- Randomness streams hitting: inconsistent amount, missing currency, all
optional fields omitted, no schema drift. -/
def srcAllAbsent : RandSrc :=
  ⟨fun i => if i = 6 then 1 / 2 else 0, fun _ => 0, fun _ => "w"⟩

theorem generate_invoice_data_fst (g : GenSt) (src : RandSrc) (ix : RandIdx)
    (b : Bool) :
    (generate_invoice_data g src ix b).1 =
      (generate_invoice_fields g.inconsistencyRate
        ("INV-" ++ natStr g.invoiceCounter) src ix b).1 := by
  unfold generate_invoice_data generate_invoice_id
  rcases h : generate_invoice_fields g.inconsistencyRate
    ("INV-" ++ natStr g.invoiceCounter) src ix b with ⟨f, ix'⟩
  simp [h]

/-- C3: every generated invoice-fields mapping contains `date` and
`vendor_name` with non-null string values, while the remaining invoice
fields can all be simultaneously absent under suitable draws (so they are
only conditionally present). -/
theorem date_vendor_always_present :
    (∀ (g : GenSt) (src : RandSrc) (ix : RandIdx) (b : Bool),
      (∃ s, lookupRec (generate_invoice_data g src ix b).1 "date" =
          some (Val.str s)) ∧
      (∃ s, lookupRec (generate_invoice_data g src ix b).1 "vendor_name" =
          some (Val.str s))) ∧
    (∃ (g : GenSt) (src : RandSrc) (ix : RandIdx),
      ∀ k ∈ (["invoice_id", "amount", "currency", "status", "due_date",
          "project_code", "tax_amount", "approver", "line_items"] :
          List String),
        lookupRec (generate_invoice_data g src ix false).1 k = none) := by
  constructor
  · intro g src ix b
    rw [generate_invoice_data_fst]
    exact generate_invoice_fields_date_vendor _ _ _ _ _
  · refine ⟨initGen 1, srcAllAbsent, ⟨0, 0, 0⟩, ?_⟩
    intro k hk
    rw [generate_invoice_data_fst]
    fin_cases hk <;>
      (simp only [initGen, generate_invoice_fields, generate_amount,
        generate_currency, generate_vendor_name, RandSrc.random,
        RandSrc.pickNat, RandSrc.pickStr, srcAllAbsent]
       norm_num [lookupRec, optEntry, currencyEntry]) <;>
      simp +decide


theorem generate_batch_spec (d : ℚ) (src : RandSrc) :
    ∀ (count : ℕ) (g : GenSt) (ix : RandIdx),
      (generate_batch g src ix count d).1.length = count ∧
      ∀ i : ℕ, i < count →
        (generate_batch g src ix count d).1[i]? =
          some (genIter d (iterState d src i (g, ix)).1 src
            (iterState d src i (g, ix)).2).1 := by
  intro count
  induction count with
  | zero => intro g ix; exact ⟨rfl, fun i hi => absurd hi (by omega)⟩
  | succ n ih =>
    intro g ix
    rcases hgi : genIter d g src ix with ⟨e, g1, ix1⟩
    rcases hgb : generate_batch g1 src ix1 n d with ⟨rest, g2, ix2⟩
    have hstep : generate_batch g src ix (n + 1) d = (e :: rest, g2, ix2) := by
      simp [generate_batch, hgi, hgb]
    obtain ⟨ihlen, ihget⟩ := ih g1 ix1
    rw [hgb] at ihlen ihget
    refine ⟨by simp [hstep, ihlen], ?_⟩
    intro i hi
    match i with
    | 0 =>
      simp [hstep, iterState, hgi]
    | j + 1 =>
      have : iterState d src (j + 1) (g, ix) = iterState d src j (g1, ix1) := by
        simp [iterState, hgi]
      rw [this, hstep]
      simp only [List.getElem?_cons_succ]
      exact ihget j (by omega)

theorem getD_mod_mem (l : List Rec) (k : ℕ) (h : l ≠ []) :
    l.getD (k % l.length) [] ∈ l := by
  have hpos : 0 < l.length := List.length_pos.mpr h
  have hlt : k % l.length < l.length := Nat.mod_lt _ hpos
  rw [List.getD_eq_getElem?_getD, List.getElem?_eq_getElem hlt]
  exact List.getElem_mem hlt

theorem generate_email_invoice_forced (g : GenSt) (src : RandSrc)
    (ix : RandIdx) (hne : g.generatedMessages ≠ []) :
    ∃ em ix', generate_email_invoice g src ix true = (em, g, ix') ∧
      em ∈ g.generatedMessages := by
  have hempty : g.generatedMessages.isEmpty = false := by
    simp [List.isEmpty_iff, hne]
  rw [generate_email_invoice]
  rw [if_pos ⟨rfl, hempty⟩]
  exact ⟨_, _, rfl, getD_mod_mem _ _ hne⟩


theorem generate_invoice_data_state (g : GenSt) (src : RandSrc)
    (ix : RandIdx) (b : Bool) :
    (generate_invoice_data g src ix b).2.1.messageCounter = g.messageCounter ∧
    (generate_invoice_data g src ix b).2.1.generatedMessages =
      g.generatedMessages := by
  unfold generate_invoice_data generate_invoice_id
  rcases h : generate_invoice_fields g.inconsistencyRate
    ("INV-" ++ natStr g.invoiceCounter) src ix b with ⟨f, ix'⟩
  simp [h]

theorem generate_email_invoice_fresh (g : GenSt) (src : RandSrc)
    (ix : RandIdx) :
    ∃ em g' ix', generate_email_invoice g src ix false = (em, g', ix') ∧
      lookupRec em "message_id" = some (.str (msgId g.messageCounter)) ∧
      g'.messageCounter = g.messageCounter + 1 ∧
      g'.generatedMessages = g.generatedMessages ++ [em] := by
  rw [generate_email_invoice]
  rw [if_neg (by simp)]
  simp only [generate_message_id]
  rcases hID : generate_invoice_data
    { g with messageCounter := g.messageCounter + 1 } src ix false
    with ⟨invoiceData, g2, ix1⟩
  have hst := generate_invoice_data_state
    { g with messageCounter := g.messageCounter + 1 } src ix false
  rw [hID] at hst
  simp only at hst
  rcases hL : RandSrc.pickNat src ix1 with ⟨letter, ix2⟩
  rcases hSi : RandSrc.pickNat src ix2 with ⟨si, ix3⟩
  rcases hBi : RandSrc.pickNat src ix3 with ⟨bi, ix4⟩
  rcases hSe : RandSrc.pickStr src ix4 with ⟨sender, ix5⟩
  rcases hDt : generate_datetime g.inconsistencyRate src ix5
    with ⟨receivedAt, ix6⟩
  simp only [hID, hL, hSi, hBi, hSe, hDt]
  refine ⟨_, _, _, rfl, ?_, ?_, ?_⟩
  · simp [lookupRec]
  · simp [hst.1]
  · simp [hst.2]

theorem generate_batch_zero_dup (src : RandSrc)
    (h0 : ∀ i, 0 ≤ src.rand i) :
    ∀ (count : ℕ) (g : GenSt) (ix : RandIdx),
      (generate_batch g src ix count 0).1.map
          (fun rec => lookupRec rec "message_id") =
        (List.range count).map
          (fun i => some (Val.str (msgId (g.messageCounter + i)))) ∧
      (generate_batch g src ix count 0).2.1.messageCounter =
        g.messageCounter + count := by
  intro count
  induction count with
  | zero => intro g ix; exact ⟨by simp [generate_batch], by simp [generate_batch]⟩
  | succ n ih =>
    intro g ix
    have hforce : (decide (src.rand ix.r < 0) &&
        !g.generatedMessages.isEmpty) = false := by
      have : ¬(src.rand ix.r < 0) := not_lt.mpr (h0 ix.r)
      simp [this]
    obtain ⟨em, g', ix', hemail, hlook, hmc, hmsgs⟩ :=
      generate_email_invoice_fresh g src { ix with r := ix.r + 1 }
    have hiter : genIter 0 g src ix = (em, g', ix') := by
      rw [genIter]
      simp only [RandSrc.random]
      rw [hforce]
      exact hemail
    rcases hgb : generate_batch g' src ix' n 0 with ⟨rest, g2, ix2⟩
    have hstep : generate_batch g src ix (n + 1) 0 = (em :: rest, g2, ix2) := by
      simp [generate_batch, hiter, hgb]
    obtain ⟨ihmap, ihmc⟩ := ih g' ix'
    rw [hgb] at ihmap ihmc
    have ihmc' : g2.messageCounter = g'.messageCounter + n := ihmc
    constructor
    · rw [hstep]
      simp only [List.map_cons, ihmap, hlook]
      rw [List.range_succ_eq_map]
      simp only [List.map_cons, List.map_map, Nat.add_zero]
      congr 1
      all_goals
        first
        | rfl
        | (apply List.map_congr_left
           intro a _
           simp only [Function.comp_apply, hmc]
           have hx : g.messageCounter + 1 + a = g.messageCounter + (a + 1) := by
             omega
           rw [hx])
    · rw [hstep]
      show g2.messageCounter = g.messageCounter + (n + 1)
      rw [ihmc', hmc]
      omega

theorem runBatches_ids (src : RandSrc) (h0 : ∀ i, 0 ≤ src.rand i) :
    ∀ (cs : List ℕ) (g : GenSt) (ix : RandIdx),
      (runBatches 0 src g ix cs).1.map
          (fun rec => lookupRec rec "message_id") =
        (List.range cs.sum).map
          (fun i => some (Val.str (msgId (g.messageCounter + i)))) ∧
      (runBatches 0 src g ix cs).2.1.messageCounter =
        g.messageCounter + cs.sum := by
  intro cs
  induction cs with
  | nil => intro g ix; exact ⟨by simp [runBatches], by simp [runBatches]⟩
  | cons c cs ih =>
    intro g ix
    rcases hb : generate_batch g src ix c 0 with ⟨b, g1, ix1⟩
    rcases hr : runBatches 0 src g1 ix1 cs with ⟨rest, g2, ix2⟩
    have hstep : runBatches 0 src g ix (c :: cs) = (b ++ rest, g2, ix2) := by
      simp [runBatches, hb, hr]
    obtain ⟨hbmap, hbmc⟩ := generate_batch_zero_dup src h0 c g ix
    rw [hb] at hbmap hbmc
    obtain ⟨hrmap, hrmc⟩ := ih g1 ix1
    rw [hr] at hrmap hrmc
    have hbmc' : g1.messageCounter = g.messageCounter + c := hbmc
    have hrmc' : g2.messageCounter = g1.messageCounter + cs.sum := hrmc
    constructor
    · rw [hstep]
      simp only [List.map_append, hbmap, hrmap, hbmc']
      rw [List.sum_cons, List.range_add, List.map_append, List.map_map]
      congr 1
      all_goals
        first
        | rfl
        | (apply List.map_congr_left
           intro a _
           simp only [Function.comp_apply]
           have hx : g.messageCounter + c + a = g.messageCounter + (c + a) := by
             omega
           rw [hx])
    · rw [hstep]
      show g2.messageCounter = g.messageCounter + (c :: cs).sum
      rw [List.sum_cons]
      omega

/-- C2: `generate_batch(count, duplicate_rate)` returns exactly `count`
records, and the i-th element of the batch is the record emitted by the
i-th loop iteration — call order, no reordering. -/
theorem generate_batch_count_and_order (g : GenSt) (src : RandSrc)
    (ix : RandIdx) (count : ℕ) (d : ℚ)
    (hc : 0 < count) (h0 : 0 ≤ d) (h1 : d ≤ 1) :
    (generate_batch g src ix count d).1.length = count ∧
    ∀ i : ℕ, i < count →
      (generate_batch g src ix count d).1[i]? =
        some (genIter d (iterState d src i (g, ix)).1 src
          (iterState d src i (g, ix)).2).1 :=
  generate_batch_spec d src count g ix

/-- C2 witness: a batch of 3 with duplicate rate 1/10. -/
theorem generate_batch_count_and_order_witness :
    ((0 < 3) ∧ (0 : ℚ) ≤ 1 / 10 ∧ (1 / 10 : ℚ) ≤ 1) ∧
    ((generate_batch (initGen (3 / 10)) srcAllAbsent ⟨0, 0, 0⟩ 3
        (1 / 10)).1.length = 3 ∧
      ∀ i : ℕ, i < 3 →
        (generate_batch (initGen (3 / 10)) srcAllAbsent ⟨0, 0, 0⟩ 3
            (1 / 10)).1[i]? =
          some (genIter (1 / 10)
            (iterState (1 / 10) srcAllAbsent i (initGen (3 / 10), ⟨0, 0, 0⟩)).1
            srcAllAbsent
            (iterState (1 / 10) srcAllAbsent i
              (initGen (3 / 10), ⟨0, 0, 0⟩)).2).1) :=
  ⟨⟨by norm_num, by norm_num, by norm_num⟩,
    generate_batch_count_and_order (initGen (3 / 10)) srcAllAbsent ⟨0, 0, 0⟩
      3 (1 / 10) (by norm_num) (by norm_num) (by norm_num)⟩

/-- C4: with `duplicate_rate = 1.0` (every `random.random()` draw lies
below 1) and a non-empty history, every record emitted by `generate_batch`
equals — field for field, message id included — some record already in the
history. -/
theorem dup_rate_one_emits_only_copies (g : GenSt) (src : RandSrc)
    (ix : RandIdx) (count : ℕ)
    (hne : g.generatedMessages ≠ [])
    (hlt : ∀ i, src.rand i < 1) :
    ∀ rec ∈ (generate_batch g src ix count 1).1,
      rec ∈ g.generatedMessages := by
  induction count generalizing ix with
  | zero => intro rec hrec; simp [generate_batch] at hrec
  | succ n ih =>
    intro rec hrec
    have hempty : g.generatedMessages.isEmpty = false := by
      simp [List.isEmpty_iff, hne]
    have hforce : (decide (src.rand ix.r < 1) &&
        !g.generatedMessages.isEmpty) = true := by
      simp [hempty, decide_eq_true (hlt ix.r)]
    obtain ⟨em, ix', hemail, hmem⟩ :=
      generate_email_invoice_forced g src ({ ix with r := ix.r + 1 }) hne
    have hiter : genIter 1 g src ix = (em, g, ix') := by
      rw [genIter]
      simp only [RandSrc.random]
      rw [show (decide (src.rand ix.r < 1) && !g.generatedMessages.isEmpty)
        = true from hforce]
      exact hemail
    rcases hgb : generate_batch g src ix' n 1 with ⟨rest, g2, ix2⟩
    have hstep : generate_batch g src ix (n + 1) 1 = (em :: rest, g2, ix2) := by
      simp [generate_batch, hiter, hgb]
    rw [hstep] at hrec
    rcases List.mem_cons.mp hrec with rfl | hrec2
    · exact hmem
    · have := ih ix'
      rw [hgb] at this
      exact this rec hrec2

/-- A generator state whose history already holds one emitted record. -/
def genW : GenSt :=
  { inconsistencyRate := 3 / 10, messageCounter := 2, invoiceCounter := 1002,
    generatedMessages := [recA] }

/-- Randomness whose `random.random()` draws are all 1/2. -/
def srcHalf : RandSrc :=
  ⟨fun _ => 1 / 2, fun _ => 0, fun _ => "w"⟩

/-- C4 witness: a 2-record batch at duplicate rate 1 over a one-record
history. -/
theorem dup_rate_one_emits_only_copies_witness :
    (genW.generatedMessages ≠ [] ∧ ∀ i, srcHalf.rand i < 1) ∧
    ∀ rec ∈ (generate_batch genW srcHalf ⟨0, 0, 0⟩ 2 1).1,
      rec ∈ genW.generatedMessages := by
  have h1 : genW.generatedMessages ≠ [] := by simp [genW]
  have h2 : ∀ i, srcHalf.rand i < 1 := fun i => by norm_num [srcHalf]
  exact ⟨⟨h1, h2⟩,
    dup_rate_one_emits_only_copies genW srcHalf ⟨0, 0, 0⟩ 2 h1 h2⟩

/-- C5: on a fresh generator with `duplicate_rate = 0.0` (every
`random.random()` draw is nonnegative, so the Bernoulli trial never
fires), the message ids across all `generate_batch` calls are exactly
`msg_001, msg_002, …` in emission order — strictly increasing counters,
hence pairwise distinct. -/
theorem fresh_run_message_ids_unique (rate : ℚ) (src : RandSrc)
    (ix : RandIdx) (cs : List ℕ) (h0 : ∀ i, 0 ≤ src.rand i) :
    (runBatches 0 src (initGen rate) ix cs).1.map
        (fun rec => lookupRec rec "message_id") =
      (List.range cs.sum).map (fun i => some (Val.str (msgId (1 + i)))) ∧
    ((runBatches 0 src (initGen rate) ix cs).1.map
        (fun rec => lookupRec rec "message_id")).Nodup := by
  obtain ⟨hmap, _⟩ := runBatches_ids src h0 cs (initGen rate) ix
  have h1 : (initGen rate).messageCounter = 1 := rfl
  rw [h1] at hmap
  refine ⟨hmap, ?_⟩
  rw [hmap]
  refine List.Nodup.map ?_ (List.nodup_range _)
  intro a b hab
  simp only [Option.some.injEq, Val.str.injEq] at hab
  have := msgId_injective hab
  omega

/-- C5 witness: two batches of sizes 2 and 1 over all-zero draws. -/
theorem fresh_run_message_ids_unique_witness :
    (∀ i, (0 : ℚ) ≤ srcAllAbsent.rand i) ∧
    ((runBatches 0 srcAllAbsent (initGen (3 / 10)) ⟨0, 0, 0⟩ [2, 1]).1.map
        (fun rec => lookupRec rec "message_id")).Nodup := by
  have h0 : ∀ i, (0 : ℚ) ≤ srcAllAbsent.rand i := by
    intro i
    simp only [srcAllAbsent]
    split <;> norm_num
  exact ⟨h0, (fresh_run_message_ids_unique (3 / 10) srcAllAbsent ⟨0, 0, 0⟩
    [2, 1] h0).2⟩

/-! ### Paginated read endpoint, `GET /invoices/stored` in
`app/api/invoices.py` -/

/-- Python `math.ceil(total / page_size)` on exact arithmetic. -/
def ceilDivQ (total pageSize : ℕ) : ℕ :=
  (Int.ceil ((total : ℚ) / (pageSize : ℚ))).toNat

/-- The fields of `PaginatedInvoiceResponse` filled in by the endpoint. -/
structure PagResponse where
  data : List Rec
  count : ℕ
  total : ℕ
  page : ℕ
  pageSize : ℕ
  totalPages : ℕ
  hasNext : Bool
  hasPrev : Bool

/-- An HTTP error raised by the endpoint (`HTTPException`). -/
inductive ApiError where
  | badRequest (detail : String)

/-- Modelled from the spec: `get_paginated_invoices` is called by the
endpoint (`invoices.py` line 135) but its implementation is not part of the
provided sources; per the spec, the flat-file `listPage` "slices the
in-memory list after a full read". -/
def get_paginated_invoices (fs : FileState) (skip limit : ℕ) : List Rec :=
  ((JSONDatabase._read_data fs).drop skip).take limit

/-- The `GET /invoices/stored` handler over the flat-file backend: count,
compute `skip`/`total_pages`, reject an out-of-range page with a 400 error,
otherwise return the page slice plus pagination metadata. -/
def get_stored_invoices (fs : FileState) (page pageSize : ℕ) :
    Except ApiError PagResponse :=
  let total := JSONDatabase.get_invoice_count fs
  let skip := (page - 1) * pageSize
  let totalPages := if 0 < total then ceilDivQ total pageSize else 1
  if page > totalPages ∧ 0 < total then
    .error (.badRequest ("Page " ++ natStr page ++
      " does not exist. Total pages: " ++ natStr totalPages))
  else
    let invoices := get_paginated_invoices fs skip pageSize
    .ok { data := invoices, count := invoices.length, total := total,
          page := page, pageSize := pageSize, totalPages := totalPages,
          hasNext := decide (page < totalPages),
          hasPrev := decide (page > 1) }

/-- The rational ceiling `math.ceil(total / page_size)` agrees with the
natural-number formula `(total + pageSize - 1) / pageSize`. -/
theorem ceilDivQ_eq (total pageSize : ℕ) (hp : 0 < pageSize) :
    ceilDivQ total pageSize = (total + pageSize - 1) / pageSize := by
  set k := (total + pageSize - 1) / pageSize with hk
  have hmod : (total + pageSize - 1) / pageSize * pageSize +
      (total + pageSize - 1) % pageSize = total + pageSize - 1 :=
    Nat.div_add_mod' _ _
  have hr : (total + pageSize - 1) % pageSize < pageSize :=
    Nat.mod_lt _ hp
  have hub : total ≤ k * pageSize := by
    rw [hk]
    omega
  have hlb : k * pageSize < total + pageSize := by
    rw [hk]
    omega
  have hq : (0 : ℚ) < (pageSize : ℚ) := by exact_mod_cast hp
  have hceil : Int.ceil ((total : ℚ) / (pageSize : ℚ)) = (k : ℤ) := by
    rw [Int.ceil_eq_iff]
    constructor
    · rw [lt_div_iff₀ hq]
      push_cast
      have : (k : ℚ) * pageSize < total + pageSize := by exact_mod_cast hlb
      linarith
    · rw [div_le_iff₀ hq]
      push_cast
      exact_mod_cast hub
  rw [ceilDivQ, hceil]
  exact Int.toNat_natCast k

/-- A key just assigned reads back as the assigned value. -/
theorem lookupRec_setKey_self (l : Rec) (k : String) (v : Val) :
    lookupRec (setKey l k v) k = some v := by
  induction l with
  | nil => simp [setKey, lookupRec]
  | cons hd tl ih =>
    obtain ⟨k₀, v₀⟩ := hd
    by_cases h₀ : k₀ = k <;> simp [setKey, h₀, lookupRec, ih]

theorem insertStamped_length (now : Val) (oid : ℕ) (batch : List Rec) :
    (MongoDatabase.insertStamped now oid batch).length = batch.length := by
  induction batch generalizing oid with
  | nil => rfl
  | cons b bs ih => simp [MongoDatabase.insertStamped, ih]

theorem insertStamped_mem (now : Val) (oid : ℕ) (batch : List Rec)
    (rec : Rec) (h : rec ∈ batch) :
    ∃ o, setKey (setKey rec "_created_at" now) "_id" (.oid o) ∈
      MongoDatabase.insertStamped now oid batch := by
  induction batch generalizing oid with
  | nil => cases h
  | cons b bs ih =>
    rcases List.mem_cons.mp h with rfl | h2
    · exact ⟨oid, List.mem_cons_self _ _⟩
    · obtain ⟨o, ho⟩ := ih (oid + 1) h2
      exact ⟨o, List.mem_cons_of_mem _ ho⟩

/-- C7: the claim asserts `_write_data` writes to a temporary location and
atomically replaces the file, so a failed save leaves the collection
unchanged. The code instead truncates the target in place
(`open(self.file_path, 'w')`) before writing: stopping the trace after the
truncation leaves the file empty, losing the previously persisted record —
while every prefix of the spec-required temp-write-and-rename trace leaves
the old or the new collection intact. -/
theorem write_data_truncates_in_place :
    writeDataOps ([recA] ++ [recB]) =
      [.openTrunc, .writeContent ([recA] ++ [recB])] ∧
    (runFsOps ⟨.ok [recA], none⟩
        ((writeDataOps ([recA] ++ [recB])).take 1)).main = .ok [] ∧
    FileState.ok ([] : List Rec) ≠ .ok [recA] ∧
    FileState.ok ([] : List Rec) ≠ .ok ([recA] ++ [recB]) ∧
    ∀ k : ℕ,
      (runFsOps ⟨.ok [recA], none⟩
          ((atomicWriteOps ([recA] ++ [recB])).take k)).main = .ok [recA] ∨
      (runFsOps ⟨.ok [recA], none⟩
          ((atomicWriteOps ([recA] ++ [recB])).take k)).main =
        .ok ([recA] ++ [recB]) := by
  refine ⟨rfl, rfl, by simp, by simp, ?_⟩
  intro k
  match k with
  | 0 => exact Or.inl rfl
  | 1 => exact Or.inl rfl
  | n + 2 =>
    right
    simp [atomicWriteOps, runFsOps, applyFsOp, List.take]

/-- C8: after a successful `save(batch)`, `listAll()` returns a superset
containing every record of the batch with identical field values: exact
record equality for the flat-file backend, and per-field value equality for
the document store (which stamps `_created_at` and `_id` onto the stored
copies, fields the generator-produced batch records do not use). -/
theorem save_roundtrip_preserves_records :
    (∀ (fs : FileState) (batch : List Rec),
      (JSONDatabase.save_invoices fs batch).1 = true ∧
      ∀ rec ∈ batch,
        rec ∈ JSONDatabase.get_all_invoices
          (JSONDatabase.save_invoices fs batch).2) ∧
    (∀ (st : MongoState) (batch : List Rec) (now : Val),
      (∀ rec ∈ batch,
        "_id" ∉ rec.map Prod.fst ∧ "_created_at" ∉ rec.map Prod.fst) →
      (MongoDatabase.save_invoices st batch now).1 = true ∧
      ∀ rec ∈ batch,
        ∃ s ∈ MongoDatabase.get_all_invoices
            (MongoDatabase.save_invoices st batch now).2,
          ∀ k ∈ rec.map Prod.fst, lookupRec s k = lookupRec rec k) := by
  constructor
  · intro fs batch
    refine ⟨rfl, fun rec hrec => ?_⟩
    simp [JSONDatabase.save_invoices, JSONDatabase.get_all_invoices,
      JSONDatabase._write_data, JSONDatabase._read_data]
    exact Or.inr hrec
  · intro st batch now hkeys
    by_cases hb : batch.isEmpty
    · rw [List.isEmpty_iff] at hb
      subst hb
      exact ⟨rfl, fun rec hrec => absurd hrec (List.not_mem_nil rec)⟩
    · constructor
      · simp [MongoDatabase.save_invoices, hb, insertStamped_length]
      · intro rec hrec
        obtain ⟨o, ho⟩ := insertStamped_mem now st.nextOid batch rec hrec
        refine ⟨setKey (setKey (setKey rec "_created_at" now) "_id" (.oid o))
          "_id" (.str (MongoDatabase.oidStr (.oid o))), ?_, ?_⟩
        · simp only [MongoDatabase.save_invoices, hb, if_neg, Bool.false_eq_true,
            not_false_iff, MongoDatabase.get_all_invoices]
          have hmem : setKey (setKey rec "_created_at" now) "_id" (.oid o) ∈
              st.coll ++ MongoDatabase.insertStamped now st.nextOid batch :=
            List.mem_append_right _ ho
          have hid : lookupRec
              (setKey (setKey rec "_created_at" now) "_id" (.oid o)) "_id" =
              some (.oid o) := lookupRec_setKey_self _ _ _
          refine List.mem_map.mpr ⟨_, hmem, ?_⟩
          rw [hid]
        · intro k hk
          have hne_id : k ≠ "_id" := fun he => (hkeys rec hrec).1 (he ▸ hk)
          have hne_cr : k ≠ "_created_at" := fun he => (hkeys rec hrec).2 (he ▸ hk)
          rw [lookupRec_setKey_ne _ _ _ _ hne_id,
            lookupRec_setKey_ne _ _ _ _ hne_id,
            lookupRec_setKey_ne _ _ _ _ hne_cr]

/-- C8 witness: a concrete one-record batch round-trips through both
backends. -/
theorem save_roundtrip_preserves_records_witness :
    (∀ rec ∈ [recA], ("_id" : String) ∉ rec.map Prod.fst ∧
      ("_created_at" : String) ∉ rec.map Prod.fst) ∧
    ((MongoDatabase.save_invoices ⟨[], 0⟩ [recA] Val.null).1 = true ∧
      ∀ rec ∈ [recA],
        ∃ s ∈ MongoDatabase.get_all_invoices
            (MongoDatabase.save_invoices ⟨[], 0⟩ [recA] Val.null).2,
          ∀ k ∈ rec.map Prod.fst, lookupRec s k = lookupRec rec k) := by
  have hkeys : ∀ rec ∈ [recA], ("_id" : String) ∉ rec.map Prod.fst ∧
      ("_created_at" : String) ∉ rec.map Prod.fst := by
    intro rec hrec
    simp only [List.mem_singleton] at hrec
    subst hrec
    refine ⟨?_, ?_⟩ <;> simp [recA]
  exact ⟨hkeys, save_roundtrip_preserves_records.2 ⟨[], 0⟩ [recA] Val.null hkeys⟩

/-- C9: in both backends saving an empty batch succeeds and leaves the
count unchanged, and `clear` is idempotent: two consecutive calls both
succeed and leave the count at zero. -/
theorem empty_save_and_clear_idempotent :
    (∀ fs : FileState,
      (JSONDatabase.save_invoices fs []).1 = true ∧
      JSONDatabase.get_invoice_count (JSONDatabase.save_invoices fs []).2 =
        JSONDatabase.get_invoice_count fs) ∧
    (∀ fs : FileState,
      (JSONDatabase.clear_invoices fs).1 = true ∧
      (JSONDatabase.clear_invoices (JSONDatabase.clear_invoices fs).2).1 = true ∧
      JSONDatabase.get_invoice_count (JSONDatabase.clear_invoices fs).2 = 0 ∧
      JSONDatabase.get_invoice_count
        (JSONDatabase.clear_invoices (JSONDatabase.clear_invoices fs).2).2 = 0) ∧
    (∀ (st : MongoState) (now : Val),
      MongoDatabase.save_invoices st [] now = (true, st)) ∧
    (∀ st : MongoState,
      (MongoDatabase.clear_invoices st).1 = true ∧
      (MongoDatabase.clear_invoices (MongoDatabase.clear_invoices st).2).1 = true ∧
      MongoDatabase.get_invoice_count (MongoDatabase.clear_invoices st).2 = 0 ∧
      MongoDatabase.get_invoice_count
        (MongoDatabase.clear_invoices (MongoDatabase.clear_invoices st).2).2 = 0) := by
  refine ⟨fun fs => ⟨rfl, ?_⟩, fun fs => ⟨rfl, rfl, rfl, rfl⟩,
    fun st now => rfl, fun st => ⟨rfl, rfl, rfl, rfl⟩⟩
  simp [JSONDatabase.save_invoices, JSONDatabase.get_invoice_count,
    JSONDatabase._write_data, JSONDatabase._read_data]

/-- C10: a missing or malformed backing file makes every read degrade
silently — `get_all_invoices` returns `[]`, `get_invoice_count` returns 0 —
and a subsequent `save_invoices` succeeds, replacing the unreadable content
with exactly the newly saved batch. -/
theorem unreadable_file_degrades_silently (fs : FileState) (batch : List Rec)
    (h : fs = .invalid ∨ fs = .missing) :
    JSONDatabase.get_all_invoices fs = [] ∧
    JSONDatabase.get_invoice_count fs = 0 ∧
    JSONDatabase.save_invoices fs batch = (true, .ok batch) := by
  rcases h with rfl | rfl <;>
    simp [JSONDatabase.get_all_invoices, JSONDatabase.get_invoice_count,
      JSONDatabase.save_invoices, JSONDatabase._read_data,
      JSONDatabase._write_data]

/-- C1: the (spec-modelled) `get_paginated_invoices` returns the slice of
the stored records beginning at `skip` with at most `limit` records, and on
a store of 47 records page 5 with page size 10 yields exactly 7 records. -/
theorem listPage_slice_and_page5_of_47 :
    (∀ (l : List Rec) (skip limit : ℕ),
      get_paginated_invoices (.ok l) skip limit = (l.drop skip).take limit ∧
      (get_paginated_invoices (.ok l) skip limit).length =
        min limit (l.length - skip) ∧
      ∀ i : ℕ, i < limit →
        (get_paginated_invoices (.ok l) skip limit)[i]? = l[skip + i]?) ∧
    (∀ stored : List Rec, stored.length = 47 →
      ∃ resp, get_stored_invoices (.ok stored) 5 10 = .ok resp ∧
        resp.data.length = 7 ∧ resp.data = (stored.drop 40).take 10) := by
  constructor
  · intro l skip limit
    refine ⟨rfl, by simp [get_paginated_invoices, JSONDatabase._read_data], ?_⟩
    intro i hi
    rw [get_paginated_invoices]
    rw [List.getElem?_take_of_lt hi, List.getElem?_drop]
    rfl
  · intro stored h47
    have htp : ceilDivQ 47 10 = 5 := by
      rw [ceilDivQ_eq 47 10 (by norm_num)]
    have hres : get_stored_invoices (.ok stored) 5 10 =
        .ok { data := (stored.drop 40).take 10,
              count := ((stored.drop 40).take 10).length,
              total := 47, page := 5, pageSize := 10, totalPages := 5,
              hasNext := false, hasPrev := true } := by
      rw [get_stored_invoices]
      simp only [JSONDatabase.get_invoice_count, JSONDatabase._read_data, h47,
        htp, get_paginated_invoices]
      norm_num
    refine ⟨_, hres, ?_, rfl⟩
    simp [List.length_take, List.length_drop, h47]

/-- C1 witness: a concrete 47-record store. -/
theorem listPage_slice_and_page5_of_47_witness :
    (List.replicate 47 recA).length = 47 ∧
    ((get_paginated_invoices (.ok (List.replicate 47 recA)) 40 10)[2]? =
        (List.replicate 47 recA)[42]?) ∧
    (∃ resp,
      get_stored_invoices (.ok (List.replicate 47 recA)) 5 10 = .ok resp ∧
        resp.data.length = 7 ∧
        resp.data = ((List.replicate 47 recA).drop 40).take 10) := by
  refine ⟨by simp, ?_, ?_⟩
  · exact (listPage_slice_and_page5_of_47.1 (List.replicate 47 recA) 40 10).2.2
      2 (by norm_num)
  · exact listPage_slice_and_page5_of_47.2 (List.replicate 47 recA) (by simp)

/-- C6: the paginated read computes `totalPages` as the ceiling of
`total / pageSize` (equal to 1 when the store is empty), rejects
`page > totalPages` with a 400 validation error while records exist, and
otherwise responds with the slice at offset `(page - 1) * pageSize` and
`hasNext`/`hasPrev` flags `page < totalPages` / `page > 1`. -/
theorem pagination_metadata (stored : List Rec) (page pageSize : ℕ)
    (hpage : 1 ≤ page) (hps1 : 1 ≤ pageSize) (hps2 : pageSize ≤ 500) :
    (0 < stored.length →
      (if 0 < stored.length then ceilDivQ stored.length pageSize else 1) =
        (stored.length + pageSize - 1) / pageSize) ∧
    (stored.length = 0 →
      (if 0 < stored.length then ceilDivQ stored.length pageSize else 1) = 1) ∧
    (page > (if 0 < stored.length then ceilDivQ stored.length pageSize else 1) ∧
        0 < stored.length →
      ∃ d, get_stored_invoices (.ok stored) page pageSize =
        .error (.badRequest d)) ∧
    (¬(page > (if 0 < stored.length then ceilDivQ stored.length pageSize
          else 1) ∧ 0 < stored.length) →
      ∃ resp, get_stored_invoices (.ok stored) page pageSize = .ok resp ∧
        resp.total = stored.length ∧
        resp.totalPages =
          (if 0 < stored.length then ceilDivQ stored.length pageSize else 1) ∧
        resp.data = (stored.drop ((page - 1) * pageSize)).take pageSize ∧
        resp.hasNext = decide (page <
          (if 0 < stored.length then ceilDivQ stored.length pageSize else 1)) ∧
        resp.hasPrev = decide (1 < page)) := by
  refine ⟨?_, ?_, ?_, ?_⟩
  · intro hpos
    rw [if_pos hpos, ceilDivQ_eq _ _ hps1]
  · intro hzero
    simp [hzero]
  · intro hcond
    rw [get_stored_invoices]
    simp only [JSONDatabase.get_invoice_count, JSONDatabase._read_data]
    rw [if_pos hcond]
    exact ⟨_, rfl⟩
  · intro hcond
    rw [get_stored_invoices]
    simp only [JSONDatabase.get_invoice_count, JSONDatabase._read_data]
    rw [if_neg hcond]
    exact ⟨_, rfl, rfl, rfl, rfl, rfl, rfl⟩

/-- C6 witness: page 1 of 100 on an empty store, and the rejected page 6 on
a 47-record store with page size 10. -/
theorem pagination_metadata_witness :
    ((1 : ℕ) ≤ 1 ∧ (1 : ℕ) ≤ 100 ∧ (100 : ℕ) ≤ 500) ∧
    (([] : List Rec).length = 0 →
      (if 0 < ([] : List Rec).length then ceilDivQ ([] : List Rec).length 100
        else 1) = 1) ∧
    (6 > (if 0 < (List.replicate 47 recA).length then
        ceilDivQ (List.replicate 47 recA).length 10 else 1) ∧
        0 < (List.replicate 47 recA).length →
      ∃ d, get_stored_invoices (.ok (List.replicate 47 recA)) 6 10 =
        .error (.badRequest d)) := by
  refine ⟨⟨le_refl 1, by norm_num, by norm_num⟩, ?_, ?_⟩
  · exact (pagination_metadata [] 1 100 (le_refl 1) (by norm_num)
      (by norm_num)).2.1
  · exact (pagination_metadata (List.replicate 47 recA) 6 10 (by norm_num)
      (by norm_num) (by norm_num)).2.2.1

/-- C10 witness: the concrete missing-file state with a one-record batch. -/
theorem unreadable_file_degrades_silently_witness :
    (FileState.missing = FileState.invalid ∨
      FileState.missing = FileState.missing) ∧
    (JSONDatabase.get_all_invoices .missing = [] ∧
      JSONDatabase.get_invoice_count .missing = 0 ∧
      JSONDatabase.save_invoices .missing [recA] = (true, .ok [recA])) :=
  ⟨Or.inr rfl, unreadable_file_degrades_silently .missing [recA] (Or.inr rfl)⟩

end MockInvoiceService
